import Mathlib

/-!
Shallow embedding of the RoAI multi-LLM platform core
(`app/utils/audit_logger.py`, `app/services/ensemble_service.py`,
`app/services/openai_service.py`, `app/services/gemini_service.py`,
`app/router.py`) together with proofs of the claimed properties.

Numeric values (risk scores, confidences, thresholds, costs) are modelled
as rationals; Python dictionaries with optional keys are modelled as
structures with `Option` fields, `dict.get(k, d)` becoming `Option.getD`.
The SHA-256 digest is kept abstract: all audit definitions are
parametrised by an arbitrary `hashFn : String → String`, so no property
of the digest is assumed anywhere.
-/

namespace RoAI

/-! ## Python rounding

`round(x, n)` in Python rounds to `n` decimal digits, ties to even. -/

/-- Integer rounding with ties to the even integer, as Python's `round`. -/
def roundHalfEven (q : ℚ) : ℤ :=
  let f : ℤ := ⌊q⌋
  let r : ℚ := q - f
  if r < 1/2 then f
  else if 1/2 < r then f + 1
  else if f % 2 = 0 then f else f + 1

/-- Python `round(q, 1)`. -/
def pyRound1 (q : ℚ) : ℚ := (roundHalfEven (q * 10) : ℚ) / 10

/-- Python `round(q, 2)`. -/
def pyRound2 (q : ℚ) : ℚ := (roundHalfEven (q * 100) : ℚ) / 100

/-! ## Audit events (`app/utils/audit_logger.py`)

An `AuditEvent` carries the nine attributes that `AuditEvent.to_dict`
persists, one JSON object per line.  `event_type` and `severity` are
string-valued enums in the source and are modelled as strings; the
`details` payload is modelled by its canonical JSON serialization. -/

structure AuditEvent where
  event_id : String
  timestamp : String
  event_type : String
  severity : String
  user_id : String
  action : String
  details : String
  previous_hash : String
  hash : String
deriving DecidableEq, Repr

/-- Canonical serialization hashed by `AuditEvent._calculate_hash`:
`json.dumps(data, sort_keys=True)` over the eight fields other than
`hash` itself.  The exact JSON syntax is irrelevant once the digest
function is abstract; what matters is that the payload is a function of
exactly these eight fields. -/
def hashPayload (e : AuditEvent) : String :=
  String.intercalate "|" [e.action, e.details, e.event_id, e.event_type,
    e.previous_hash, e.severity, e.timestamp, e.user_id]

/-- Python `AuditEvent._calculate_hash`: digest of the canonical
serialization of all fields except `hash`. -/
def calculateHash (hashFn : String → String) (e : AuditEvent) : String :=
  hashFn (hashPayload e)

/-- Python `AuditEvent.__init__`: the generated `event_id` and the
current `timestamp` are nondeterministic in the source and are taken
here as explicit arguments; `hash` is computed from the other fields. -/
def mkAuditEvent (hashFn : String → String)
    (event_id timestamp event_type severity user_id action details
      previous_hash : String) : AuditEvent :=
  let e : AuditEvent :=
    { event_id := event_id, timestamp := timestamp, event_type := event_type
      severity := severity, user_id := user_id, action := action
      details := details, previous_hash := previous_hash, hash := "" }
  { e with hash := calculateHash hashFn e }

/-- Python `AuditEvent.to_dict`: the persisted record holds exactly the
nine fields of the event. -/
def toDict (e : AuditEvent) : AuditEvent :=
  { event_id := e.event_id, timestamp := e.timestamp
    event_type := e.event_type, severity := e.severity
    user_id := e.user_id, action := e.action, details := e.details
    previous_hash := e.previous_hash, hash := e.hash }

/-- Python `AuditEvent.from_dict`: constructs a fresh event (with a newly
generated id and timestamp, given here as `freshId`/`freshTs`) from the
persisted payload fields and then overrides `event_id`, `timestamp` and
`hash` with the saved values. -/
def fromDict (hashFn : String → String) (freshId freshTs : String)
    (d : AuditEvent) : AuditEvent :=
  let e := mkAuditEvent hashFn freshId freshTs d.event_type d.severity
    d.user_id d.action d.details d.previous_hash
  { e with event_id := d.event_id, timestamp := d.timestamp, hash := d.hash }

/-! ## The audit logger state

Persisted storage is the list of daily segment files in chronological
order (the source reads them back with `sorted(glob("audit_*.jsonl"))`;
since segment names carry the calendar date and days only move forward,
creation order coincides with sorted order).  Each file is the list of
its parsed JSON lines. -/

/-- Persisted log storage: segment file name paired with its lines. -/
abbrev AuditFiles := List (String × List AuditEvent)

/-- Python `AuditLogger` mutable state: persisted files, the date of the
current segment, the running `last_hash`, and the in-memory buffer. -/
structure LoggerState where
  files : AuditFiles
  current_date : String
  last_hash : String
  buffer : List AuditEvent
deriving DecidableEq, Repr

/-- Daily segment file name, `audit_{date}.jsonl`. -/
def segmentFileName (date : String) : String :=
  "audit_" ++ date ++ ".jsonl"

/-- Python `AuditLogger.__init__` over an empty log directory:
no files, `last_hash = "0"`, empty buffer. -/
def initLogger (date : String) : LoggerState :=
  { files := [], current_date := date, last_hash := "0", buffer := [] }

/-- Append lines to the named file, creating it at the end of the list
when absent (segment files are created in date order). -/
def appendToFile : AuditFiles → String → List AuditEvent → AuditFiles
  | [], name, evs => [(name, evs)]
  | (n, es) :: rest, name, evs =>
    if n = name then (n, es ++ evs) :: rest
    else (n, es) :: appendToFile rest name evs

/-- Python `AuditLogger._flush_buffer`: write all buffered events to the
current segment file. -/
def flushBuffer (st : LoggerState) : LoggerState :=
  if st.buffer.isEmpty then st
  else
    { st with
      files := appendToFile st.files (segmentFileName st.current_date) st.buffer
      buffer := [] }

/-- Inputs to one `log_event` call: the calendar date observed at call
time plus the event attributes (the generated id and timestamp given
explicitly, as in `mkAuditEvent`). -/
structure EventSpec where
  date : String
  event_id : String
  timestamp : String
  event_type : String
  severity : String
  user_id : String
  action : String
  details : String
deriving DecidableEq, Repr

/-- Python `AuditLogger.log_event`: on a day change, flush the buffer to
the old segment, switch to the new segment and reset `last_hash` to the
sentinel `"0"`; then create the event chained to `last_hash`, advance
`last_hash`, buffer the event, and flush once the buffer reaches 100
events. -/
def logEvent (hashFn : String → String) (st : LoggerState)
    (sp : EventSpec) : LoggerState × AuditEvent :=
  let st :=
    if sp.date ≠ st.current_date then
      let st := flushBuffer st
      { st with current_date := sp.date, last_hash := "0" }
    else st
  let e := mkAuditEvent hashFn sp.event_id sp.timestamp sp.event_type
    sp.severity sp.user_id sp.action sp.details st.last_hash
  let st := { st with last_hash := e.hash, buffer := st.buffer ++ [e] }
  let st := if 100 ≤ st.buffer.length then flushBuffer st else st
  (st, e)

/-- Iterated `log_event`. -/
def logEvents (hashFn : String → String) (st : LoggerState) :
    List EventSpec → LoggerState
  | [] => st
  | sp :: sps => logEvents hashFn (logEvent hashFn st sp).1 sps

/-! ## Chain verification (`AuditLogger.verify_chain_integrity`) -/

/-- One entry of the `broken_chains` list. -/
inductive ChainViolation where
  /-- Recorded when `data["previous_hash"] != previous_hash`. -/
  | linkMismatch (file : String) (line : ℕ) (event_id : String)
      (expected_previous_hash actual_previous_hash : String)
  /-- Recorded when the event rebuilt by `from_dict` has
  `event.hash != data["hash"]`. -/
  | hashMismatch (file : String) (line : ℕ) (event_id : String)
deriving DecidableEq, Repr

/-- Running state of the verification scan. -/
structure VerifyState where
  previous_hash : String
  total : ℕ
  verified : ℕ
  broken : List ChainViolation
deriving DecidableEq, Repr

/-- Body of the per-line loop of `verify_chain_integrity`: check the
`previous_hash` link, then rebuild the event with `from_dict` and
compare its `hash` attribute with the stored one, then advance the
tracker to the stored hash. -/
def verifyStep (hashFn : String → String) (fname : String) (lineNo : ℕ)
    (s : VerifyState) (d : AuditEvent) : VerifyState :=
  let total := s.total + 1
  let linkOk := d.previous_hash = s.previous_hash
  let verified := if linkOk then s.verified + 1 else s.verified
  let broken :=
    if linkOk then s.broken
    else s.broken ++
      [ChainViolation.linkMismatch fname lineNo d.event_id
        s.previous_hash d.previous_hash]
  let e := fromDict hashFn "fresh-id" "fresh-ts" d
  let broken :=
    if e.hash = d.hash then broken
    else broken ++ [ChainViolation.hashMismatch fname lineNo d.event_id]
  { previous_hash := d.hash, total := total, verified := verified
    broken := broken }

/-- Scan the lines of one file, numbering them from `lineNo`. -/
def verifyLines (hashFn : String → String) (fname : String) :
    ℕ → VerifyState → List AuditEvent → VerifyState
  | _, s, [] => s
  | n, s, d :: ds =>
    verifyLines hashFn fname (n + 1) (verifyStep hashFn fname n s d) ds

/-- Verification report returned by `verify_chain_integrity`. -/
structure IntegrityReport where
  total_events : ℕ
  verified_events : ℕ
  integrity_percentage : ℚ
  broken_chains : List ChainViolation
  intact : Bool
deriving DecidableEq, Repr

/-- Python `AuditLogger.verify_chain_integrity` over persisted files:
a single `previous_hash` tracker initialized to `"0"` once, before the
loop over files, and threaded through every file in order. -/
def verifyChainIntegrity (hashFn : String → String)
    (files : AuditFiles) : IntegrityReport :=
  let s := files.foldl
    (fun st f => verifyLines hashFn f.1 1 st f.2)
    { previous_hash := "0", total := 0, verified := 0, broken := [] }
  { total_events := s.total
    verified_events := s.verified
    integrity_percentage :=
      if 0 < s.total then (s.verified : ℚ) / (s.total : ℚ) * 100 else 0
    broken_chains := s.broken
    intact := s.broken.isEmpty }

/-- Full `verify_chain_integrity` call on a logger: flush the buffer,
then verify the persisted files. -/
def verifyIntegrity (hashFn : String → String) (st : LoggerState) :
    IntegrityReport :=
  verifyChainIntegrity hashFn (flushBuffer st).files

/-! ## Provider results (`app/services/openai_service.py`,
`app/services/gemini_service.py`)

A provider result is the dictionary returned by
`OpenAIService.analyze_risk` or `GeminiService.analyze_long_context`.
The ensemble reads only `risk_score`, `confidence` and the `cost` and
`latency` entries of `metadata`, always through `dict.get` with a
default, so those are modelled as `Option` fields (`none` = key absent).
String fields record where each service puts its error text; fields the
ensemble and the claims never consume (`risk_level`, `recommendation`,
`primary_concerns`, `summary`, `key_findings`) are omitted. -/

structure RiskResult where
  risk_score : Option ℚ
  confidence : Option ℚ
  /-- Present in OpenAI-shaped results (`reasoning` key). -/
  reasoning : Option String
  /-- Present in Gemini-shaped results (`detailed_analysis` key). -/
  detailed_analysis : Option String
  /-- Entry `metadata["cost"]`. -/
  cost : Option ℚ
  /-- Entry `metadata["latency"]`. -/
  latency : Option ℚ
  /-- Entry `metadata["error"]`. -/
  error : Option String
deriving DecidableEq, Repr

/-- Python `OpenAIService._error_result`: neutral default with
`risk_score` 50, `confidence` 0.0, reasoning `"Error: {msg}"`, and no
cost or latency metadata. -/
def openaiErrorResult (msg : String) : RiskResult :=
  { risk_score := some 50, confidence := some 0
    reasoning := some ("Error: " ++ msg), detailed_analysis := none
    cost := none, latency := none, error := some msg }

/-- Python `GeminiService._error_result`: neutral default with
`risk_score` 50, `confidence` 0.0, the error text in
`detailed_analysis`, and no cost or latency metadata. -/
def geminiErrorResult (msg : String) : RiskResult :=
  { risk_score := some 50, confidence := some 0
    reasoning := none, detailed_analysis := some ("Error: " ++ msg)
    cost := none, latency := none, error := some msg }

/-- Outcome of one gateway call as seen by a provider service.  The
gateway catches every exception of the underlying client and returns a
standardized response dictionary, so a provider invocation has exactly
three shapes: success with parseable JSON (the parsed payload may still
miss keys, hence the `Option` parameters), success whose content fails
JSON decoding, or a gateway-level failure carrying an error string. -/
inductive CallOutcome where
  | ok (risk_score confidence : Option ℚ) (text : Option String)
      (cost latency : ℚ)
  | badJson (content : String)
  | callFailed (error : String)
deriving DecidableEq, Repr

/-- Python `OpenAIService.analyze_risk` as a function of the gateway
outcome: on success the returned dictionary fills missing payload keys
with the defaults (`risk_score` 50, `confidence` 0.5, reasoning text);
a JSON decode failure or a failed gateway response is mapped through
`_error_result`. -/
def openaiAnalyzeRisk : CallOutcome → RiskResult
  | .ok rs cf txt cost lat =>
    { risk_score := some (rs.getD 50), confidence := some (cf.getD (1/2))
      reasoning := some (txt.getD "No reasoning provided")
      detailed_analysis := none
      cost := some cost, latency := some lat, error := none }
  | .badJson content =>
    openaiErrorResult ("Invalid JSON response: " ++ content)
  | .callFailed e => openaiErrorResult e

/-- Python `GeminiService.analyze_long_context` as a function of the
gateway outcome: success fills payload defaults; a JSON decode failure
goes through `_text_fallback_result` (`risk_score` 50, `confidence`
0.6, the raw text kept); a failed gateway response goes through
`_error_result`. -/
def geminiAnalyzeLongContext : CallOutcome → RiskResult
  | .ok rs cf txt cost lat =>
    { risk_score := some (rs.getD 50), confidence := some (cf.getD (1/2))
      reasoning := none, detailed_analysis := some (txt.getD "")
      cost := some cost, latency := some lat, error := none }
  | .badJson content =>
    { risk_score := some 50, confidence := some (6/10)
      reasoning := none, detailed_analysis := some content
      cost := some 0, latency := some 0, error := none }
  | .callFailed e => geminiErrorResult e

/-! ## Ensemble comparison and decision
(`app/services/ensemble_service.py`) -/

/-- Comparison dictionary built by `EnsembleService._compare_results`. -/
structure Comparison where
  openai_score : ℚ
  gemini_score : ℚ
  score_deviation : ℚ
  score_deviation_percent : ℚ
  openai_confidence : ℚ
  gemini_confidence : ℚ
  confidence_delta : ℚ
  agreement : Bool
  high_deviation : Bool
  avg_score : ℚ
  avg_confidence : ℚ
  deviation_threshold : ℚ
deriving DecidableEq, Repr

/-- Python `EnsembleService._compare_results`: scores default to 50 and
confidences to 0.5 when absent; `high_deviation` is the strict
comparison `score_deviation > deviation_threshold` and `agreement` is
its negation. -/
def compareResults (threshold : ℚ) (o g : RiskResult) : Comparison :=
  let openai_score := o.risk_score.getD 50
  let gemini_score := g.risk_score.getD 50
  let score_deviation := |openai_score - gemini_score|
  let openai_confidence := o.confidence.getD (1/2)
  let gemini_confidence := g.confidence.getD (1/2)
  let high_deviation := decide (score_deviation > threshold)
  { openai_score := openai_score
    gemini_score := gemini_score
    score_deviation := score_deviation
    score_deviation_percent := score_deviation / 100 * 100
    openai_confidence := openai_confidence
    gemini_confidence := gemini_confidence
    confidence_delta := |openai_confidence - gemini_confidence|
    agreement := !high_deviation
    high_deviation := high_deviation
    avg_score := (openai_score + gemini_score) / 2
    avg_confidence := (openai_confidence + gemini_confidence) / 2
    deviation_threshold := threshold }

/-- Decision type strings produced by `_make_decision`. -/
inductive DecisionType where
  | CONSENSUS
  | WEIGHTED_AVERAGE
  | ESCALATE
deriving DecidableEq, Repr

/-- Data interpolated into the `reasoning` f-string of each decision
branch; the surrounding English template carries no further
information, so the string is modelled by its interpolated values. -/
inductive DecisionReasoning where
  | highDeviation (score_deviation openai_score gemini_score : ℚ)
  | consensus (score_deviation : ℚ) (preferred_model : String)
      (confidence : ℚ)
  | weightedAverage (score_deviation final_score : ℚ)
deriving DecidableEq, Repr

/-- Decision dictionary returned by `_make_decision`. -/
structure EnsembleDecision where
  decision_type : DecisionType
  final_score : ℚ
  risk_level : String
  confidence : ℚ
  reasoning : DecisionReasoning
  requires_human_review : Bool
  model_agreement : Bool
deriving DecidableEq, Repr

/-- Python `EnsembleService._make_decision`: `high_deviation` escalates
with the average score and minimum confidence; otherwise `agreement`
yields consensus taking the result of the provider with strictly higher
OpenAI confidence, ties falling to the Gemini branch; the remaining
branch computes a confidence-weighted average.  `final_score` and
`confidence` are rounded for display to 1 and 2 decimal digits, while
`risk_level` is banded from the unrounded score. -/
def makeDecision (c : Comparison) : EnsembleDecision :=
  let res :=
    if c.high_deviation then
      (DecisionType.ESCALATE, c.avg_score,
        min c.openai_confidence c.gemini_confidence,
        DecisionReasoning.highDeviation c.score_deviation c.openai_score
          c.gemini_score)
    else if c.agreement then
      if c.openai_confidence > c.gemini_confidence then
        (DecisionType.CONSENSUS, c.openai_score, c.openai_confidence,
          DecisionReasoning.consensus c.score_deviation "OpenAI"
            c.openai_confidence)
      else
        (DecisionType.CONSENSUS, c.gemini_score, c.gemini_confidence,
          DecisionReasoning.consensus c.score_deviation "Gemini"
            c.gemini_confidence)
    else
      let total_confidence := c.openai_confidence + c.gemini_confidence
      let final_score :=
        if total_confidence > 0 then
          c.openai_score * (c.openai_confidence / total_confidence) +
            c.gemini_score * (c.gemini_confidence / total_confidence)
        else c.avg_score
      (DecisionType.WEIGHTED_AVERAGE, final_score, c.avg_confidence,
        DecisionReasoning.weightedAverage c.score_deviation final_score)
  let final_score := res.2.1
  let risk_level :=
    if final_score ≥ 80 then "CRITICAL"
    else if final_score ≥ 60 then "HIGH"
    else if final_score ≥ 40 then "MEDIUM"
    else "LOW"
  { decision_type := res.1
    final_score := pyRound1 final_score
    risk_level := risk_level
    confidence := pyRound2 res.2.2.1
    reasoning := res.2.2.2
    requires_human_review := c.high_deviation
    model_agreement := c.agreement }

/-! ## Ensemble metrics and the full validation call -/

/-- Metrics dictionary of `EnsembleService`. -/
structure Metrics where
  total_requests : ℕ
  agreements : ℕ
  disagreements : ℕ
  escalations : ℕ
  total_cost : ℚ
  total_latency : ℚ
deriving DecidableEq, Repr

/-- Metrics value set by `EnsembleService.__init__` and by
`reset_metrics`. -/
def initMetrics : Metrics :=
  { total_requests := 0, agreements := 0, disagreements := 0
    escalations := 0, total_cost := 0, total_latency := 0 }

/-- Python `EnsembleService._update_metrics`. -/
def updateMetrics (m : Metrics) (o g : RiskResult) (c : Comparison) :
    Metrics :=
  { total_requests := m.total_requests + 1
    agreements := if c.agreement then m.agreements + 1 else m.agreements
    disagreements :=
      if c.agreement then m.disagreements else m.disagreements + 1
    escalations :=
      if c.high_deviation then m.escalations + 1 else m.escalations
    total_cost := m.total_cost + (o.cost.getD 0 + g.cost.getD 0)
    total_latency := m.total_latency + max (o.latency.getD 0) (g.latency.getD 0) }

/-- Return value of `analyze_with_validation`. -/
structure EnsembleOutput where
  ensemble_decision : EnsembleDecision
  openai_result : RiskResult
  gemini_result : RiskResult
  comparison : Comparison
  total_cost : ℚ
  total_latency : ℚ
deriving DecidableEq, Repr

/-- Python `EnsembleService.analyze_with_validation` as a function of the
two provider results: compare, decide, update the metrics, and return
the result dictionary.  The function is total — the source catches
every provider-side exception at the gateway boundary and the services
map failures through `_error_result`, so this path never raises. -/
def analyzeWithValidation (threshold : ℚ) (m : Metrics)
    (o g : RiskResult) : EnsembleOutput × Metrics :=
  let c := compareResults threshold o g
  let d := makeDecision c
  ({ ensemble_decision := d
     openai_result := o
     gemini_result := g
     comparison := c
     total_cost := o.cost.getD 0 + g.cost.getD 0
     total_latency := max (o.latency.getD 0) (g.latency.getD 0) },
   updateMetrics m o g c)

/-- Externally triggerable operations that touch the ensemble metrics. -/
inductive EnsembleOp where
  | analyze (o g : RiskResult)
  | reset
deriving DecidableEq, Repr

/-- Run a sequence of `analyze_with_validation` and `reset_metrics`
calls, threading the metrics state. -/
def runOps (threshold : ℚ) (m : Metrics) : List EnsembleOp → Metrics
  | [] => m
  | .analyze o g :: ops =>
    runOps threshold (analyzeWithValidation threshold m o g).2 ops
  | .reset :: ops => runOps threshold initMetrics ops

/-! ## Routing (`app/router.py`, `app/models/task.py`) -/

/-- Task type enumeration of `app/models/task.py`. -/
inductive TaskType where
  | RISK_SCORING
  | FRAUD_DETECTION
  | COMPLIANCE_CHECK
  | DOCUMENT_ANALYSIS
  | GENERAL
deriving DecidableEq, Repr

/-- Task attributes consulted by the router (plus identifier and
description, which routing never reads). -/
structure Task where
  task_id : String
  description : String
  requires_strict_json : Bool
  context_length : ℕ
  multi_document : Bool
  business_impact : ℚ
  task_type : TaskType
deriving DecidableEq, Repr

/-- Router configuration thresholds, read at construction. -/
structure LLMRouter where
  context_length_threshold : ℕ
  business_impact_threshold : ℚ
deriving DecidableEq, Repr

/-- Router built from the default environment values
(`CONTEXT_LENGTH_THRESHOLD` 80000, `BUSINESS_IMPACT_THRESHOLD` 0.8). -/
def defaultRouter : LLMRouter :=
  { context_length_threshold := 80000, business_impact_threshold := 8/10 }

/-- Python `LLMRouter.route`: priority-ordered rules with strict
threshold comparisons. -/
def LLMRouter.route (r : LLMRouter) (t : Task) : String :=
  if t.requires_strict_json then "openai"
  else if t.context_length > r.context_length_threshold then "gemini"
  else if t.multi_document then "gemini"
  else if t.business_impact > r.business_impact_threshold then "ensemble"
  else "openai"

/-! ## Auxiliary predicates used by the verification -/

/-- Hash-chain invariant of a list of persisted events: each event links
to the running hash, starting from `prev`. -/
def wellChained (prev : String) : List AuditEvent → Prop
  | [] => True
  | e :: es => e.previous_hash = prev ∧ wellChained e.hash es

/-- Hash at the end of a chain started at `prev`. -/
def chainEnd (prev : String) : List AuditEvent → String
  | [] => prev
  | e :: es => chainEnd e.hash es

/-- Invariant claimed for the ensemble metrics counters. -/
def MetricsInv (m : Metrics) : Prop :=
  m.agreements + m.disagreements = m.total_requests ∧
    m.escalations = m.disagreements

/-- Invariant of a logger that has only ever seen the date `d0`:
`evs` is the full chronological event list, chained from the sentinel,
split between the single segment file and the buffer, with `last_hash`
the chain end. -/
def SameDayInv (d0 : String) (st : LoggerState)
    (evs : List AuditEvent) : Prop :=
  st.current_date = d0 ∧
  (st.files = [] ∧ evs = st.buffer ∨
    ∃ flushed, st.files = [(segmentFileName d0, flushed)] ∧
      evs = flushed ++ st.buffer) ∧
  wellChained "0" evs ∧
  st.last_hash = chainEnd "0" evs

/-! ## Concrete instances used by witnesses and counterexamples -/

/-- Stand-in digest used to evaluate the audit model on concrete
inputs; the verification theorems themselves hold for every digest
function. -/
def demoHash (s : String) : String := "sha256(" ++ s ++ ")"

/-- First demo `log_event` call on 2024-01-01. -/
def loginSpec : EventSpec :=
  { date := "20240101", event_id := "AUD-1", timestamp := "t1"
    event_type := "user_action", severity := "info", user_id := "alice"
    action := "login", details := "ip=10.0.0.1" }

/-- Second demo `log_event` call on the same day. -/
def logoutSpec : EventSpec :=
  { date := "20240101", event_id := "AUD-2", timestamp := "t2"
    event_type := "user_action", severity := "info", user_id := "alice"
    action := "logout", details := "ip=10.0.0.1" }

/-- Second demo `log_event` call falling on the next calendar day. -/
def nextDaySpec : EventSpec :=
  { logoutSpec with date := "20240102" }

/-- Logger after two same-day appends to an empty log. -/
def sameDayState : LoggerState :=
  logEvents demoHash (initLogger "20240101") [loginSpec, logoutSpec]

/-- Persisted storage of `sameDayState` once flushed. -/
def persistedFiles : AuditFiles := (flushBuffer sameDayState).files

/-- Alter the `details` field of the stored event with the given id,
leaving its stored `hash` untouched — direct tampering in storage. -/
def tamperDetails (files : AuditFiles) (eid newDetails : String) :
    AuditFiles :=
  files.map fun f =>
    (f.1, f.2.map fun e =>
      if e.event_id = eid then { e with details := newDetails } else e)

/-- Demo storage with the first event's `details` tampered. -/
def tamperedFiles : AuditFiles :=
  tamperDetails persistedFiles "AUD-1" "ip=99.99.99.99"

/-- Logger after two appends that span a calendar-day boundary. -/
def twoDayState : LoggerState :=
  logEvents demoHash (initLogger "20240101") [loginSpec, nextDaySpec]

/-- OpenAI-shaped result with score 70 and confidence 0.6. -/
def tieOpenAI : RiskResult :=
  { risk_score := some 70, confidence := some (6/10)
    reasoning := some "ok", detailed_analysis := none
    cost := some 0, latency := some 0, error := none }

/-- Gemini-shaped result with score 72 and the same confidence 0.6. -/
def tieGemini : RiskResult :=
  { risk_score := some 72, confidence := some (6/10)
    reasoning := none, detailed_analysis := some "ok"
    cost := some 0, latency := some 0, error := none }

/-- OpenAI-shaped result with score 70 and confidence 0.6. -/
def lowConfOpenAI : RiskResult :=
  { tieOpenAI with confidence := some (6/10) }

/-- Gemini-shaped result with score 72 and higher confidence 0.9. -/
def highConfGemini : RiskResult :=
  { tieGemini with confidence := some (9/10) }

/-- OpenAI-shaped result with score 80 and confidence 0.9. -/
def score80 : RiskResult :=
  { tieOpenAI with risk_score := some 80, confidence := some (9/10) }

/-- Gemini-shaped result with score 40 and confidence 0.7. -/
def score40 : RiskResult :=
  { tieGemini with risk_score := some 40, confidence := some (7/10) }

/-- Task sitting exactly at the context threshold but with
`multi_document` set. -/
def boundaryMultiDocTask : Task :=
  { task_id := "task-1", description := "batch of contracts"
    requires_strict_json := false, context_length := 80000
    multi_document := true, business_impact := 1/2
    task_type := .DOCUMENT_ANALYSIS }

/-- Task sitting exactly at both thresholds, single document. -/
def boundaryTask : Task :=
  { task_id := "task-2", description := "quarterly report"
    requires_strict_json := false, context_length := 80000
    multi_document := false, business_impact := 8/10
    task_type := .GENERAL }

/-- Strict-JSON task whose every other attribute would trigger a later
rule. -/
def strictJsonTask : Task :=
  { task_id := "task-3", description := "risk scoring"
    requires_strict_json := true, context_length := 200000
    multi_document := true, business_impact := 1
    task_type := .RISK_SCORING }

/-- Demo audit event created through the constructor. -/
def demoEvent : AuditEvent :=
  mkAuditEvent demoHash "AUD-9" "t9" "system_event" "info" "bob"
    "config change" "level=4" "0"

/-! ## General lemmas -/

theorem fromDict_eq (hashFn : String → String) (freshId freshTs : String)
    (d : AuditEvent) : fromDict hashFn freshId freshTs d = d := rfl

theorem roundHalfEven_intCast (n : ℤ) : roundHalfEven (n : ℚ) = n := by
  unfold roundHalfEven
  norm_num [Int.floor_intCast]

theorem pyRound1_eq_self {q : ℚ} (h : ∃ k : ℤ, q * 10 = k) :
    pyRound1 q = q := by
  obtain ⟨k, hk⟩ := h
  unfold pyRound1
  rw [hk, roundHalfEven_intCast, ← hk]
  ring

theorem pyRound2_eq_self {q : ℚ} (h : ∃ k : ℤ, q * 100 = k) :
    pyRound2 q = q := by
  obtain ⟨k, hk⟩ := h
  unfold pyRound2
  rw [hk, roundHalfEven_intCast, ← hk]
  ring

/-! ## Audit claims -/

/-- Claim C9: an event whose stored hash was computed from its fields
(as the constructor guarantees) reproduces exactly that hash when the
event is rebuilt from its persisted dictionary and the hash is
recomputed over the restored fields. -/
theorem audit_hash_roundtrip (hashFn : String → String)
    (freshId freshTs : String) (e : AuditEvent)
    (h : e.hash = calculateHash hashFn e) :
    calculateHash hashFn (fromDict hashFn freshId freshTs (toDict e)) =
      e.hash := by
  have h1 : fromDict hashFn freshId freshTs (toDict e) = e := rfl
  rw [h1, ← h]

/-- Witness for `audit_hash_roundtrip` at a constructor-built event. -/
theorem audit_hash_roundtrip_witness :
    demoEvent.hash = calculateHash demoHash demoEvent ∧
    calculateHash demoHash
        (fromDict demoHash "fresh-id" "fresh-ts" (toDict demoEvent)) =
      demoEvent.hash :=
  ⟨rfl, audit_hash_roundtrip demoHash "fresh-id" "fresh-ts" demoEvent rfl⟩

/-- Claim C1 (code bug): altering one persisted event's `details` in
storage, without touching its stored hash, leaves
`verify_chain_integrity` reporting an intact chain with zero broken
entries — `from_dict` overrides the recomputed hash with the stored
one, so the hash comparison can never fire. -/
theorem audit_tamper_undetected :
    tamperedFiles ≠ persistedFiles ∧
    (verifyChainIntegrity demoHash tamperedFiles).intact = true ∧
    (verifyChainIntegrity demoHash tamperedFiles).broken_chains = [] ∧
    (verifyChainIntegrity demoHash tamperedFiles).verified_events = 2 := by
  decide

/-- Claim C2 (code bug): two legitimately appended events that span a
calendar-day boundary are flagged — the verifier threads one
`previous_hash` tracker across segment files without resetting it to
the sentinel `"0"` that `log_event` uses for a new day's first event. -/
theorem audit_cross_segment_flagged :
    (verifyIntegrity demoHash twoDayState).intact = false ∧
    (verifyIntegrity demoHash twoDayState).total_events = 2 ∧
    (verifyIntegrity demoHash twoDayState).verified_events = 1 ∧
    (verifyIntegrity demoHash twoDayState).broken_chains.length = 1 := by
  decide

/-! ## Routing claims -/

/-- Claim C8: `requires_strict_json` routes to the primary provider
regardless of every other task attribute. -/
theorem route_strict_json_primary (r : LLMRouter) (t : Task)
    (h : t.requires_strict_json = true) : r.route t = "openai" := by
  simp [LLMRouter.route, h]

/-- Witness for `route_strict_json_primary` on a task whose other
attributes would all trigger later rules. -/
theorem route_strict_json_primary_witness :
    strictJsonTask.requires_strict_json = true ∧
    defaultRouter.route strictJsonTask = "openai" :=
  ⟨rfl, route_strict_json_primary defaultRouter strictJsonTask rfl⟩

/-- Claim C7, counterexample: a task exactly at the context threshold
with `multi_document` set is still routed to the secondary provider by
rule 3. -/
theorem route_boundary_counterexample :
    boundaryMultiDocTask.context_length =
      defaultRouter.context_length_threshold ∧
    defaultRouter.route boundaryMultiDocTask = "gemini" := by
  decide

/-- Claim C7 (amended): the context rule itself never fires at the
boundary — with `multi_document` false, a task exactly at the context
threshold is not routed to the secondary provider; and a task exactly
at the impact threshold is never routed to "ensemble". -/
theorem route_boundary_amended (r : LLMRouter) (t : Task) :
    (t.context_length = r.context_length_threshold →
      t.multi_document = false → r.route t ≠ "gemini") ∧
    (t.business_impact = r.business_impact_threshold →
      r.route t ≠ "ensemble") := by
  constructor
  · intro hcl hmd
    unfold LLMRouter.route
    split_ifs with h1 h2 h3 h4
    · decide
    · exact absurd h2 (by omega)
    · exact absurd h3 (by simp [hmd])
    · decide
    · decide
  · intro hbi
    have h4 : ¬ (t.business_impact > r.business_impact_threshold) := by
      rw [hbi]
      exact lt_irrefl _
    unfold LLMRouter.route
    split_ifs with h1 h2 h3 <;> decide

/-- Witness for `route_boundary_amended` at a task sitting exactly at
both thresholds. -/
theorem route_boundary_amended_witness :
    defaultRouter.route boundaryTask ≠ "gemini" ∧
    defaultRouter.route boundaryTask ≠ "ensemble" :=
  ⟨(route_boundary_amended defaultRouter boundaryTask).1 rfl rfl,
    (route_boundary_amended defaultRouter boundaryTask).2 rfl⟩

/-! ## Ensemble claims -/

/-- Claim C3, counterexample: scores 70 and 72 within the threshold and
exactly equal confidences 0.6 — the consensus branch picks the Gemini
result (final score 72), not the primary provider's 70. -/
theorem ensemble_tie_counterexample :
    tieOpenAI.confidence.getD (1/2) = tieGemini.confidence.getD (1/2) ∧
    |tieOpenAI.risk_score.getD 50 - tieGemini.risk_score.getD 50| ≤ 15 ∧
    (makeDecision (compareResults 15 tieOpenAI tieGemini)).final_score = 72 ∧
    ¬ (makeDecision (compareResults 15 tieOpenAI tieGemini)).final_score =
        tieOpenAI.risk_score.getD 50 := by
  norm_num [makeDecision, compareResults, tieOpenAI, tieGemini, pyRound1,
    pyRound2, roundHalfEven]

/-- Claim C3 (amended): when the score deviation is within the
threshold the decision is CONSENSUS without human review, taking score
and confidence (display-rounded to 1 and 2 decimals) from the provider
with strictly higher confidence; an exact confidence tie falls to the
Gemini branch. -/
theorem ensemble_consensus_amended (t : ℚ) (o g : RiskResult)
    (h : |o.risk_score.getD 50 - g.risk_score.getD 50| ≤ t) :
    (makeDecision (compareResults t o g)).decision_type = .CONSENSUS ∧
    (makeDecision (compareResults t o g)).requires_human_review = false ∧
    (o.confidence.getD (1/2) > g.confidence.getD (1/2) →
      (makeDecision (compareResults t o g)).final_score =
          pyRound1 (o.risk_score.getD 50) ∧
        (makeDecision (compareResults t o g)).confidence =
          pyRound2 (o.confidence.getD (1/2))) ∧
    (¬ o.confidence.getD (1/2) > g.confidence.getD (1/2) →
      (makeDecision (compareResults t o g)).final_score =
          pyRound1 (g.risk_score.getD 50) ∧
        (makeDecision (compareResults t o g)).confidence =
          pyRound2 (g.confidence.getD (1/2))) := by
  have hd : ¬ (|o.risk_score.getD 50 - g.risk_score.getD 50| > t) :=
    not_lt.mpr h
  rcases lt_or_ge (g.confidence.getD 2⁻¹) (o.confidence.getD 2⁻¹) with hc | hc
  · simp [makeDecision, compareResults, hd, hc]
  · have hc2 : ¬ (g.confidence.getD 2⁻¹ < o.confidence.getD 2⁻¹) :=
      not_lt.mpr hc
    simp [makeDecision, compareResults, hd, hc2]

/-- Witness for `ensemble_consensus_amended` on scores 70 and 72 with
confidences 0.6 and 0.9: the higher-confidence Gemini score 72 wins. -/
theorem ensemble_consensus_amended_witness :
    |lowConfOpenAI.risk_score.getD 50 - highConfGemini.risk_score.getD 50| ≤ 15 ∧
    (makeDecision (compareResults 15 lowConfOpenAI highConfGemini)).decision_type
        = .CONSENSUS ∧
    (makeDecision (compareResults 15 lowConfOpenAI highConfGemini)).final_score
        = 72 ∧
    (makeDecision
        (compareResults 15 lowConfOpenAI highConfGemini)).requires_human_review
        = false := by
  have h : |lowConfOpenAI.risk_score.getD 50 -
      highConfGemini.risk_score.getD 50| ≤ (15 : ℚ) := by
    norm_num [lowConfOpenAI, highConfGemini, tieOpenAI, tieGemini]
  have hnc : ¬ lowConfOpenAI.confidence.getD (1/2) >
      highConfGemini.confidence.getD (1/2) := by
    norm_num [lowConfOpenAI, highConfGemini, tieOpenAI, tieGemini]
  have hmain := ensemble_consensus_amended 15 lowConfOpenAI highConfGemini h
  refine ⟨h, hmain.1, ?_, hmain.2.1⟩
  rw [(hmain.2.2.2 hnc).1,
    show highConfGemini.risk_score.getD 50 = (72 : ℚ) by
      norm_num [highConfGemini, tieGemini]]
  exact pyRound1_eq_self ⟨720, by norm_num⟩

/-- Claim C4: a deviation above the threshold escalates, with the final
score the mean of the two scores, the confidence the minimum of the two
confidences, and mandatory human review.  The integrality hypotheses
make the display rounding of `_make_decision` exact: integer scores
have a mean representable at 1 decimal, and a minimum confidence
representable at 2 decimals round-trips unchanged. -/
theorem ensemble_escalate_general (t : ℚ) (o g : RiskResult)
    (hso : ∃ a : ℤ, o.risk_score.getD 50 = a)
    (hsg : ∃ b : ℤ, g.risk_score.getD 50 = b)
    (hcf : ∃ k : ℤ,
      min (o.confidence.getD (1/2)) (g.confidence.getD (1/2)) * 100 = k)
    (hdev : |o.risk_score.getD 50 - g.risk_score.getD 50| > t) :
    (makeDecision (compareResults t o g)).decision_type = .ESCALATE ∧
    (makeDecision (compareResults t o g)).final_score =
      (o.risk_score.getD 50 + g.risk_score.getD 50) / 2 ∧
    (makeDecision (compareResults t o g)).confidence =
      min (o.confidence.getD (1/2)) (g.confidence.getD (1/2)) ∧
    (makeDecision (compareResults t o g)).requires_human_review = true := by
  obtain ⟨a, ha⟩ := hso
  obtain ⟨b, hb⟩ := hsg
  have h1 : pyRound1 ((o.risk_score.getD 50 + g.risk_score.getD 50) / 2) =
      (o.risk_score.getD 50 + g.risk_score.getD 50) / 2 := by
    refine pyRound1_eq_self ⟨5 * (a + b), ?_⟩
    rw [ha, hb]
    push_cast
    ring
  have h2 : pyRound2
      (min (o.confidence.getD (1/2)) (g.confidence.getD (1/2))) =
      min (o.confidence.getD (1/2)) (g.confidence.getD (1/2)) :=
    pyRound2_eq_self hcf
  simp only [one_div] at h2
  simp [makeDecision, compareResults, hdev, h1, h2]

/-- Witness for `ensemble_escalate_general` on scores 80 and 40 with
confidences 0.9 and 0.7 under the default threshold 15: ESCALATE with
final score 60. -/
theorem ensemble_escalate_general_witness :
    |score80.risk_score.getD 50 - score40.risk_score.getD 50| > 15 ∧
    (makeDecision (compareResults 15 score80 score40)).decision_type =
      .ESCALATE ∧
    (makeDecision (compareResults 15 score80 score40)).final_score = 60 ∧
    (makeDecision (compareResults 15 score80 score40)).confidence = 7/10 ∧
    (makeDecision (compareResults 15 score80 score40)).requires_human_review =
      true := by
  have hdev : |score80.risk_score.getD 50 - score40.risk_score.getD 50| >
      (15 : ℚ) := by
    norm_num [score80, score40, tieOpenAI, tieGemini]
  have h := ensemble_escalate_general 15 score80 score40
    ⟨80, by norm_num [score80, tieOpenAI]⟩
    ⟨40, by norm_num [score40, tieGemini]⟩
    ⟨70, by norm_num [score80, score40, tieOpenAI, tieGemini, min_def]⟩ hdev
  refine ⟨hdev, h.1, ?_, ?_, h.2.2.2⟩
  · rw [h.2.1]
    norm_num [score80, score40, tieOpenAI, tieGemini]
  · rw [h.2.2.1]
    norm_num [score80, score40, tieOpenAI, tieGemini, min_def]

/-- Claim C5: with `agreement` defined as the negation of
`high_deviation`, every decision is CONSENSUS or ESCALATE and the
WEIGHTED_AVERAGE branch of `_make_decision` is unreachable. -/
theorem ensemble_binary_outcome (t : ℚ) (o g : RiskResult) :
    ((makeDecision (compareResults t o g)).decision_type = .CONSENSUS ∨
      (makeDecision (compareResults t o g)).decision_type = .ESCALATE) ∧
    (makeDecision (compareResults t o g)).decision_type ≠
      .WEIGHTED_AVERAGE := by
  by_cases hd : |o.risk_score.getD 50 - g.risk_score.getD 50| > t
  · simp [makeDecision, compareResults, hd]
  · rcases lt_or_ge (g.confidence.getD 2⁻¹) (o.confidence.getD 2⁻¹) with hc | hc
    · simp [makeDecision, compareResults, hd, hc]
    · have hc2 : ¬ (g.confidence.getD 2⁻¹ < o.confidence.getD 2⁻¹) :=
        not_lt.mpr hc
      simp [makeDecision, compareResults, hd, hc2]

/-- Claim C6: a failed provider invocation is mapped to the neutral
default (`risk_score` 50, `confidence` 0.0) with the failure text kept
in the returned provider result, the comparison feeding the decision is
built from those defaults, and `analyze_with_validation` — a total
function here, as the source catches every provider-side exception —
still returns a full result object. -/
theorem ensemble_failure_neutral_default (t : ℚ) (m : Metrics)
    (err : String) (oc gc : CallOutcome) :
    ((analyzeWithValidation t m (openaiAnalyzeRisk (.callFailed err))
        (geminiAnalyzeLongContext gc)).1.openai_result =
        openaiErrorResult err ∧
      (openaiErrorResult err).risk_score = some 50 ∧
      (openaiErrorResult err).confidence = some 0 ∧
      (openaiErrorResult err).reasoning = some ("Error: " ++ err) ∧
      (analyzeWithValidation t m (openaiAnalyzeRisk (.callFailed err))
        (geminiAnalyzeLongContext gc)).1.comparison.openai_score = 50 ∧
      (analyzeWithValidation t m (openaiAnalyzeRisk (.callFailed err))
        (geminiAnalyzeLongContext gc)).1.comparison.openai_confidence = 0) ∧
    ((analyzeWithValidation t m (openaiAnalyzeRisk oc)
        (geminiAnalyzeLongContext (.callFailed err))).1.gemini_result =
        geminiErrorResult err ∧
      (geminiErrorResult err).risk_score = some 50 ∧
      (geminiErrorResult err).confidence = some 0 ∧
      (geminiErrorResult err).detailed_analysis = some ("Error: " ++ err) ∧
      (analyzeWithValidation t m (openaiAnalyzeRisk oc)
        (geminiAnalyzeLongContext (.callFailed err))).1.comparison.gemini_score
        = 50 ∧
      (analyzeWithValidation t m (openaiAnalyzeRisk oc)
        (geminiAnalyzeLongContext
          (.callFailed err))).1.comparison.gemini_confidence = 0) := by
  simp [analyzeWithValidation, openaiAnalyzeRisk, geminiAnalyzeLongContext,
    openaiErrorResult, geminiErrorResult, compareResults]

/-- Metrics bookkeeping of one `analyze_with_validation` call preserves
the counter invariant: exactly one of agreements/disagreements is
incremented, and escalations follows disagreements. -/
theorem metrics_step (t : ℚ) (m : Metrics) (o g : RiskResult)
    (h : MetricsInv m) : MetricsInv (analyzeWithValidation t m o g).2 := by
  obtain ⟨h1, h2⟩ := h
  by_cases hd : |o.risk_score.getD 50 - g.risk_score.getD 50| > t <;>
    simp [MetricsInv, analyzeWithValidation, updateMetrics, compareResults,
      hd] <;>
    omega

/-- Claim C10: after any sequence of `analyze_with_validation` and
`reset_metrics` calls starting from freshly initialized metrics,
`agreements + disagreements = total_requests` and
`escalations = disagreements`. -/
theorem ensemble_metrics_invariant (t : ℚ) (ops : List EnsembleOp) :
    (runOps t initMetrics ops).agreements +
        (runOps t initMetrics ops).disagreements =
      (runOps t initMetrics ops).total_requests ∧
    (runOps t initMetrics ops).escalations =
      (runOps t initMetrics ops).disagreements := by
  suffices h : ∀ m, MetricsInv m → MetricsInv (runOps t m ops) from
    h initMetrics ⟨rfl, rfl⟩
  induction ops with
  | nil => exact fun m hm => hm
  | cons op ops ih =>
    intro m hm
    cases op with
    | analyze o g =>
      simpa only [runOps] using ih _ (metrics_step t m o g hm)
    | reset =>
      simpa only [runOps] using ih initMetrics ⟨rfl, rfl⟩

/-! ## The writer side of the audit chain is coherent

Supporting development: all events appended within a single calendar
day verify as an intact chain of the expected length, which isolates
the defect of `verify_chain_integrity` exhibited above to the missing
per-segment tracker reset. -/

theorem wellChained_append (e : AuditEvent) (p : String)
    (l : List AuditEvent) (hl : wellChained p l)
    (he : e.previous_hash = chainEnd p l) : wellChained p (l ++ [e]) := by
  induction l generalizing p with
  | nil => exact ⟨he, trivial⟩
  | cons d ds ih =>
    obtain ⟨h1, h2⟩ := hl
    exact ⟨h1, ih d.hash h2 he⟩

theorem chainEnd_append (e : AuditEvent) (p : String)
    (l : List AuditEvent) : chainEnd p (l ++ [e]) = e.hash := by
  induction l generalizing p with
  | nil => rfl
  | cons d ds ih => exact ih d.hash

theorem verifyStep_chain (hashFn : String → String) (fname : String)
    (n : ℕ) (s : VerifyState) (d : AuditEvent)
    (h : d.previous_hash = s.previous_hash) :
    verifyStep hashFn fname n s d =
      { previous_hash := d.hash, total := s.total + 1
        verified := s.verified + 1, broken := s.broken } := by
  simp [verifyStep, h, fromDict_eq]

theorem verifyLines_chain (hashFn : String → String) (fname : String)
    (ds : List AuditEvent) :
    ∀ (n : ℕ) (s : VerifyState), wellChained s.previous_hash ds →
      verifyLines hashFn fname n s ds =
        { previous_hash := chainEnd s.previous_hash ds
          total := s.total + ds.length
          verified := s.verified + ds.length
          broken := s.broken } := by
  induction ds with
  | nil =>
    intro n s _
    simp [verifyLines, chainEnd]
  | cons d ds ih =>
    intro n s h
    obtain ⟨h1, h2⟩ := h
    rw [verifyLines, verifyStep_chain hashFn fname n s d h1, ih (n + 1) _ h2]
    simp [chainEnd]
    omega

theorem logEvent_preserves_inv (hashFn : String → String) (d0 : String)
    (st : LoggerState) (sp : EventSpec) (evs : List AuditEvent)
    (hdate : sp.date = d0) (hinv : SameDayInv d0 st evs) :
    SameDayInv d0 (logEvent hashFn st sp).1
      (evs ++ [(logEvent hashFn st sp).2]) := by
  obtain ⟨hd, hfiles, hchain, hlast⟩ := hinv
  have heq : ¬ sp.date ≠ st.current_date := by simp [hdate, hd]
  unfold logEvent
  simp only [if_neg heq]
  set e := mkAuditEvent hashFn sp.event_id sp.timestamp sp.event_type
    sp.severity sp.user_id sp.action sp.details st.last_hash with he
  have hprev : e.previous_hash = chainEnd "0" evs := hlast
  have hchain2 : wellChained "0" (evs ++ [e]) :=
    wellChained_append e "0" evs hchain hprev
  have hend2 : chainEnd "0" (evs ++ [e]) = e.hash :=
    chainEnd_append e "0" evs
  have hne : (st.buffer ++ [e]).isEmpty = false := by simp
  split
  · have hfl : flushBuffer
        { files := st.files, current_date := st.current_date
          last_hash := e.hash, buffer := st.buffer ++ [e] } =
        { files := appendToFile st.files (segmentFileName st.current_date)
            (st.buffer ++ [e])
          current_date := st.current_date, last_hash := e.hash
          buffer := [] } := by
      simp [flushBuffer, hne]
    rw [hfl]
    refine ⟨hd, ?_, hchain2, hend2.symm⟩
    rcases hfiles with ⟨hf, hb⟩ | ⟨flushed, hf, hb⟩
    · refine Or.inr ⟨st.buffer ++ [e], ?_, ?_⟩
      · rw [hf, hd]
        rfl
      · rw [hb]
        simp
    · refine Or.inr ⟨flushed ++ (st.buffer ++ [e]), ?_, ?_⟩
      · rw [hf, hd]
        simp [appendToFile]
      · rw [hb]
        simp
  · refine ⟨hd, ?_, hchain2, hend2.symm⟩
    rcases hfiles with ⟨hf, hb⟩ | ⟨flushed, hf, hb⟩
    · exact Or.inl ⟨hf, by rw [hb]⟩
    · exact Or.inr ⟨flushed, hf, by rw [hb, List.append_assoc]⟩

theorem logEvents_same_day_inv (hashFn : String → String) (d0 : String)
    (sps : List EventSpec) :
    ∀ (st : LoggerState) (evs : List AuditEvent),
      (∀ sp ∈ sps, sp.date = d0) → SameDayInv d0 st evs →
      ∃ evs2, SameDayInv d0 (logEvents hashFn st sps) evs2 ∧
        evs2.length = evs.length + sps.length := by
  induction sps with
  | nil => exact fun st evs _ hinv => ⟨evs, hinv, rfl⟩
  | cons sp sps ih =>
    intro st evs hdates hinv
    obtain ⟨evs2, hinv2, hlen⟩ := ih (logEvent hashFn st sp).1
      (evs ++ [(logEvent hashFn st sp).2])
      (fun q hq => hdates q (List.mem_cons_of_mem sp hq))
      (logEvent_preserves_inv hashFn d0 st sp evs
        (hdates sp (List.mem_cons_self sp sps)) hinv)
    exact ⟨evs2, hinv2, by simpa using hlen.trans (by simp; omega)⟩

theorem verifyChainIntegrity_nil (hashFn : String → String) :
    verifyChainIntegrity hashFn [] =
      { total_events := 0, verified_events := 0, integrity_percentage := 0
        broken_chains := [], intact := true } := by
  simp [verifyChainIntegrity]

theorem verifyChainIntegrity_single (hashFn : String → String)
    (name : String) (evs : List AuditEvent)
    (hchain : wellChained "0" evs) :
    (verifyChainIntegrity hashFn [(name, evs)]).intact = true ∧
    (verifyChainIntegrity hashFn [(name, evs)]).verified_events =
      evs.length ∧
    (verifyChainIntegrity hashFn [(name, evs)]).total_events =
      evs.length := by
  unfold verifyChainIntegrity
  rw [show ([(name, evs)] : AuditFiles).foldl
      (fun st f => verifyLines hashFn f.1 1 st f.2)
      { previous_hash := "0", total := 0, verified := 0, broken := [] } =
      verifyLines hashFn name 1
        { previous_hash := "0", total := 0, verified := 0, broken := [] }
        evs from rfl]
  rw [verifyLines_chain hashFn name evs 1 _ hchain]
  simp

/-- Appending any number of events on a single calendar day to an empty
log and verifying yields an intact chain with every event verified:
the writer side honours the hash-chain discipline, so the broken-chain
reports on legitimate multi-day logs come from the verifier's missing
per-segment reset alone. -/
theorem audit_single_segment_intact (hashFn : String → String)
    (d0 : String) (sps : List EventSpec)
    (h : ∀ sp ∈ sps, sp.date = d0) :
    (verifyIntegrity hashFn (logEvents hashFn (initLogger d0) sps)).intact
        = true ∧
    (verifyIntegrity hashFn
        (logEvents hashFn (initLogger d0) sps)).verified_events =
      sps.length ∧
    (verifyIntegrity hashFn
        (logEvents hashFn (initLogger d0) sps)).total_events =
      sps.length := by
  obtain ⟨evs2, ⟨hd, hfiles, hchain, -⟩, hlen⟩ :=
    logEvents_same_day_inv hashFn d0 sps (initLogger d0) []
      h ⟨rfl, Or.inl ⟨rfl, rfl⟩, trivial, rfl⟩
  simp only [List.length_nil, Nat.zero_add] at hlen
  set st2 := logEvents hashFn (initLogger d0) sps with hst2
  unfold verifyIntegrity
  by_cases hbuf : st2.buffer.isEmpty
  · have hfl : flushBuffer st2 = st2 := by simp [flushBuffer, hbuf]
    rw [hfl]
    have hbnil : st2.buffer = [] := List.isEmpty_iff.mp hbuf
    rcases hfiles with ⟨hf, hb⟩ | ⟨flushed, hf, hb⟩
    · rw [hf, verifyChainIntegrity_nil]
      have : evs2 = [] := by rw [hb, hbnil]
      simp [← hlen, this]
    · have hevs : evs2 = flushed := by rw [hb, hbnil, List.append_nil]
      rw [hf]
      have := verifyChainIntegrity_single hashFn (segmentFileName d0)
        flushed (hevs ▸ hchain)
      rw [← hlen, hevs]
      exact this
  · have hfl : (flushBuffer st2).files =
        appendToFile st2.files (segmentFileName st2.current_date)
          st2.buffer := by
      simp [flushBuffer, hbuf]
    rw [hfl, hd]
    rcases hfiles with ⟨hf, hb⟩ | ⟨flushed, hf, hb⟩
    · rw [hf]
      have hevs : evs2 = st2.buffer := hb
      rw [show appendToFile [] (segmentFileName d0) st2.buffer =
          [(segmentFileName d0, st2.buffer)] from rfl]
      have := verifyChainIntegrity_single hashFn (segmentFileName d0)
        st2.buffer (hevs ▸ hchain)
      rw [← hlen, hevs]
      exact this
    · rw [hf]
      rw [show appendToFile [(segmentFileName d0, flushed)]
          (segmentFileName d0) st2.buffer =
          [(segmentFileName d0, flushed ++ st2.buffer)] by
        simp [appendToFile]]
      have := verifyChainIntegrity_single hashFn (segmentFileName d0)
        (flushed ++ st2.buffer) (hb ▸ hchain)
      rw [← hlen, hb]
      exact this

end RoAI
